import Mathlib

/-!
Shallow embedding of the query/mutation compiler core of the Semantu/linked
repository (the @_linked/core package), together with proofs settling the
frozen claims about its specification.

The embedding follows the TypeScript sources:
  * src/shapes/SHACL.ts           - NodeShape / PropertyShape metadata
  * src/queries/QueryFactory.ts   - checkNewCount, value types
  * src/queries/MutationQuery.ts  - MutationQueryFactory conversion routines
  * src/queries/UpdateQuery.ts / CreateQuery.ts - the mutation factories
  * src/queries/SelectQuery.ts    - query tracing (getPropertyPath, where, one)

JavaScript runtime values are modelled by the mutual inductive type
`JSValue` / `JSArray` / `JSFields`; a plain object is its list of own
enumerable (key, value) pairs in insertion order.  In-place mutation
(`delete obj.__id`, `delete value.shape`, element mutation inside arrays)
is modelled by state passing: every conversion function returns the
compiled result together with the post-state of its input value.
-/

/- ### SHACL node kinds (src/shapes/SHACL.ts, normalizeNodeKind)
normalizeNodeKind always produces one of the six combinations
IRI, Literal, BlankNode, BlankNodeOrIRI, IRIOrLiteral, BlankNodeOrLiteral;
we represent a node kind by the set of base kinds it admits. -/
structure NodeKind where
  iri : Bool
  literal : Bool
  blank : Bool
deriving DecidableEq, Repr

def NodeKind.shaclIRI : NodeKind := ⟨true, false, false⟩

def NodeKind.shaclLiteral : NodeKind := ⟨false, true, false⟩

def NodeKind.shaclBlankNode : NodeKind := ⟨false, false, true⟩

def NodeKind.shaclBlankNodeOrIRI : NodeKind := ⟨true, false, true⟩

def NodeKind.shaclIRIOrLiteral : NodeKind := ⟨true, true, false⟩

def NodeKind.shaclBlankNodeOrLiteral : NodeKind := ⟨false, true, true⟩

/-- membership-wise subset test between node kinds (narrowing). -/
def NodeKind.isSubsetOf (a b : NodeKind) : Bool :=
  (!a.iri || b.iri) && (!a.literal || b.literal) && (!a.blank || b.blank)

/- ### PropertyShape / NodeShape metadata (src/shapes/SHACL.ts)
`PropertyShape` keeps the fields used by the compiler core.  `minCount` and
`maxCount` are `Option Int` (`none` = unset, mirroring `undefined`). -/
structure PropertyShape where
  label : String
  parentNodeShapeLabel : String
  minCount : Option Int
  maxCount : Option Int
  nodeKind : Option NodeKind
  /-- `valueShape` is a NodeReferenceValue `{id}`; we keep the id. -/
  valueShape : Option String
deriving DecidableEq, Repr

/-- A NodeShape together with the flattened result of
`getPropertyShapes(true)` (own property shapes of the class followed by the
property shapes of each ancestor class, closest first). -/
structure NodeShape where
  id : String
  label : String
  propertyShapes : List PropertyShape
deriving DecidableEq, Repr

/-- The registry mapping node-shape ids to their shape records
(`getShapeClass(ref).shape` in the source). -/
abbrev ShapeRegistry := List NodeShape

def getShapeClass (reg : ShapeRegistry) (id : String) : Option NodeShape :=
  reg.find? (fun s => s.id == id)

/-- `shape.label || shape.id.split('/').pop()` used in an error message of
convertNodeDescription (empty string is falsy in JS). -/
def nodeShapeDisplayName (s : NodeShape) : String :=
  if s.label != "" then s.label
  else ((s.id.splitOn "/").getLast? ).getD ""

/- ### JavaScript runtime values -/
mutual
inductive JSValue where
  | str (s : String)
  | num (n : Int)
  | boolean (b : Bool)
  | date (t : Int)
  | nullV
  | undef
  | funcV
  /-- a Shape class object (a constructor function whose static `shape`
  member is the NodeShape with the given id). -/
  | shapeClass (nodeShapeId : String)
  | arr (items : JSArray)
  | obj (fields : JSFields)
inductive JSArray where
  | nil
  | cons (head : JSValue) (tail : JSArray)
inductive JSFields where
  | nil
  | cons (key : String) (val : JSValue) (tail : JSFields)
end

/-- JS truthiness. -/
def truthy : JSValue → Bool
  | .str s => s != ""
  | .num n => n != 0
  | .boolean b => b
  | .date _ => true
  | .nullV => false
  | .undef => false
  | .funcV => true
  | .shapeClass _ => true
  | .arr _ => true
  | .obj _ => true

def JSFields.hasKey : JSFields → String → Bool
  | .nil, _ => false
  | .cons k _ t, key => k == key || t.hasKey key

/-- property read; a missing key yields `undefined`. -/
def JSFields.getProp : JSFields → String → JSValue
  | .nil, _ => .undef
  | .cons k v t, key => if k == key then v else t.getProp key

/-- `delete obj[key]` (a JS object has no duplicate keys, so removing every
occurrence agrees with removing the one binding). -/
def JSFields.deleteKey : JSFields → String → JSFields
  | .nil, _ => .nil
  | .cons k v t, key => if k == key then t.deleteKey key else .cons k v (t.deleteKey key)

/-- `obj[key] = newVal` for a key that is already present (replaces the
binding in place, preserving key order). -/
def JSFields.setKey : JSFields → String → JSValue → JSFields
  | .nil, _, _ => .nil
  | .cons k v t, key, newVal =>
      if k == key then .cons k newVal t else .cons k v (t.setKey key newVal)

/-- `Object.getOwnPropertyNames(obj).length`. -/
def JSFields.numKeys : JSFields → Nat
  | .nil => 0
  | .cons _ _ t => t.numKeys + 1

def JSFields.keys : JSFields → List String
  | .nil => []
  | .cons k _ t => k :: t.keys

/-- `value.toString()` as used for `obj.__id.toString()`. -/
def jsToString : JSValue → String
  | .str s => s
  | .num n => toString n
  | .boolean b => if b then "true" else "false"
  | .date t => "Date:" ++ toString t
  | .nullV => "null"
  | .undef => "undefined"
  | .funcV => "function"
  | .shapeClass i => "class:" ++ i
  | .arr _ => ""
  | .obj _ => "[object Object]"

/-- literal JS primitives that convertUpdateValue keeps as-is
(string / number / boolean / Date). -/
def isLiteralPrim : JSValue → Bool
  | .str _ => true
  | .num _ => true
  | .boolean _ => true
  | .date _ => true
  | _ => false

/- ### Compiled mutation values (src/queries/QueryFactory.ts) -/
inductive UpdateValue where
  /-- a literal primitive kept as-is (LiteralUpdateValue). -/
  | lit (v : JSValue)
  /-- `undefined` in the compiled object (UnsetValue). -/
  | unset
  /-- a converted array of single values. -/
  | vals (items : List UpdateValue)
  /-- a NodeReferenceValue `{id}`; carries the id value. -/
  | ref (idVal : JSValue)
  /-- a NodeDescriptionValue `{shape, fields, __id?}`. -/
  | desc (shapeId : String) (oid : Option String) (fields : List (PropertyShape × UpdateValue))
  /-- a SetModificationValue `{$add?, $remove?}`; `$remove` holds node
  reference id values. -/
  | setMod (addVals : Option (List UpdateValue)) (removeVals : Option (List JSValue))

def UpdateValue.isSetModValue : UpdateValue → Bool
  | .setMod _ _ => true
  | _ => false

def UpdateValue.isRefValue : UpdateValue → Bool
  | .ref _ => true
  | _ => false

abbrev Err := String

/- ### Non-recursive conversion helpers (src/queries/MutationQuery.ts) -/

/-- MutationQuery.ts isNodeReference (lines 248-253): an object with an `id`
property; all other properties are ignored (the key-count check is
commented out in the source). -/
def isNodeReference : JSValue → Bool
  | .obj fields => fields.hasKey "id"
  | _ => false

/-- MutationQuery.ts isSetModification (lines 40-47).  Note the JS operator
precedence: `hasAdd || (hasRemove && numKeysExpected === numKeys)`. -/
def isSetModification (fields : JSFields) : Bool :=
  let hasAdd := truthy (fields.getProp "add")
  let hasRemove := truthy (fields.getProp "remove")
  let numKeysExpected := (if hasAdd then 1 else 0) + (if hasRemove then 1 else 0)
  let numKeys := fields.numKeys
  hasAdd || (hasRemove && numKeysExpected == numKeys)

/-- MutationQuery.ts convertNodeReference (lines 279-286): `{id: obj.id}`. -/
def convertNodeReference (fields : JSFields) : JSValue :=
  fields.getProp "id"

/-- MutationQuery.ts convertSingleRemoveValue (lines 90-101). -/
def convertSingleRemoveValue (v : JSValue) (shape : PropertyShape) : Except Err JSValue :=
  match v with
  | .obj fields =>
      if fields.hasKey "id" then .ok (convertNodeReference fields)
      else .error ("Invalid value for " ++ shape.label ++
        ".$remove. Expected an object with an id as key: \x7bid:string\x7d")
  | _ => .error ("Invalid value for " ++ shape.label ++
      ".$remove. Expected an object with an id as key: \x7bid:string\x7d")

def convertRemoveArray (items : JSArray) (shape : PropertyShape) : Except Err (List JSValue) :=
  match items with
  | .nil => .ok []
  | .cons h t =>
      match convertSingleRemoveValue h shape with
      | .error e => .error e
      | .ok r =>
          match convertRemoveArray t shape with
          | .error e => .error e
          | .ok rs => .ok (r :: rs)

/-- MutationQuery.ts convertSetRemoveValue (lines 66-77): a single node
reference is normalized into a one-element array. -/
def convertSetRemoveValue (v : JSValue) (shape : PropertyShape) : Except Err (List JSValue) :=
  match v with
  | .arr items => convertRemoveArray items shape
  | other =>
      match convertSingleRemoveValue other shape with
      | .error e => .error e
      | .ok r => .ok [r]

/-- the static NodeShape behind `value.shape.shape` when the `shape` key of a
value object holds a Shape class; any other value makes
`value.shape.shape instanceof NodeShape` false. -/
def shapeKeyNodeShape (reg : ShapeRegistry) (v : JSValue) : Option NodeShape :=
  match v with
  | .shapeClass sid => getShapeClass reg sid
  | _ => none

theorem JSFields.sizeOf_deleteKey_le (f : JSFields) (key : String) :
    sizeOf (f.deleteKey key) ≤ sizeOf f := by
  match f with
  | .nil => simp [JSFields.deleteKey]
  | .cons k v t =>
      have ih := JSFields.sizeOf_deleteKey_le t key
      simp only [JSFields.deleteKey]
      split <;> simp <;> omega

theorem JSFields.sizeOf_getProp_le (f : JSFields) (key : String) :
    sizeOf (f.getProp key) ≤ sizeOf f := by
  match f with
  | .nil => simp [JSFields.getProp]
  | .cons k v t =>
      have ih := JSFields.sizeOf_getProp_le t key
      simp only [JSFields.getProp]
      split <;> simp <;> omega

/- ### The mutation conversion routines (src/queries/MutationQuery.ts)

All functions return the compiled result together with the post-state of
their (in JS, mutated in place) input value. -/
mutual

/-- MutationQuery.ts convertUpdateValue (lines 148-246). -/
def convertUpdateValue (reg : ShapeRegistry) (value : JSValue)
    (propShape : PropertyShape) (allowArrays : Bool) :
    Except Err (UpdateValue × JSValue) :=
  match value with
  | .str s => .ok (.lit (.str s), .str s)
  | .num n => .ok (.lit (.num n), .num n)
  | .boolean b => .ok (.lit (.boolean b), .boolean b)
  | .date t => .ok (.lit (.date t), .date t)
  | .arr items =>
      if !allowArrays then
        .error "Nested arrays are not allowed as values of keys"
      else
        match convertArrayItems reg items propShape false with
        | .error e => .error e
        | .ok (rs, post) => .ok (.vals rs, .arr post)
  | .undef => .ok (.unset, .undef)
  | .nullV => .ok (.unset, .nullV)
  | .funcV => .error "Unsupported update value type: function"
  | .shapeClass _ => .error "Unsupported update value type: function"
  | .obj fields =>
      if fields.hasKey "id" then
        .ok (.ref (convertNodeReference fields), .obj fields)
      else
        match propShape.valueShape with
        | some vsId =>
            match getShapeClass reg vsId with
            | none => .error ("Shape class not found for " ++ vsId)
            | some valueShape => convertObjectValue reg fields propShape valueShape
        | none =>
            if truthy (fields.getProp "shape") then
              match shapeKeyNodeShape reg (fields.getProp "shape") with
              | some valueShape => convertObjectValue reg fields propShape valueShape
              | none =>
                  .error "The value of property shape is invalid and should be a class that extends Shape."
            else
              .error ("Cannot update properties with plain objects if the shape of the values is not known. Make sure get/set " ++
                propShape.parentNodeShapeLabel ++ "." ++ propShape.label ++
                " defines the shape key in its @objectProperty decorator.")
termination_by 5 * sizeOf value
decreasing_by all_goals (simp_wf <;> omega)

/-- Tail of the plain-object branch of convertUpdateValue: the
shape-key consistency check and `delete value.shape` (lines 209-218). -/
def convertObjectValue (reg : ShapeRegistry) (fields : JSFields)
    (propShape : PropertyShape) (valueShape : NodeShape) :
    Except Err (UpdateValue × JSValue) :=
  if truthy (fields.getProp "shape") then
    match shapeKeyNodeShape reg (fields.getProp "shape") with
    | some ns =>
        if ns.id != valueShape.id then
          .error ("The property shape is reserved in LINCD and should not be used here in this way. The " ++
            propShape.label ++ " property already defines the shape of the value as " ++
            propShape.label ++
            ". If you want to use a different shape, use the shape key in the @objectProperty decorator.")
        else
          convertStrippedObject reg (fields.deleteKey "shape") propShape valueShape
    | none => .error "TypeError: Cannot read properties of undefined (reading id)"
  else
    convertStrippedObject reg fields propShape valueShape
termination_by 5 * sizeOf fields + 4
decreasing_by all_goals (simp_wf <;> (first | omega | (have hsz := JSFields.sizeOf_deleteKey_le fields "shape"; omega)))

/-- Last step of the plain-object branch of convertUpdateValue
(lines 220-224): set modification vs nested node description. -/
def convertStrippedObject (reg : ShapeRegistry) (fields : JSFields)
    (propShape : PropertyShape) (valueShape : NodeShape) :
    Except Err (UpdateValue × JSValue) :=
  if isSetModification fields then
    convertSetModification reg fields propShape
  else
    match convertNodeDescription reg fields valueShape with
    | .error e => .error e
    | .ok (oid, flds, post) => .ok (.desc valueShape.id oid flds, .obj post)
termination_by 5 * sizeOf fields + 3
decreasing_by all_goals (simp_wf <;> omega)

/-- MutationQuery.ts convertSetModification (lines 49-64).  The result is a
new object; the input keeps its keys, the value under `add` is mutated
element-wise. -/
def convertSetModification (reg : ShapeRegistry) (fields : JSFields)
    (propShape : PropertyShape) : Except Err (UpdateValue × JSValue) :=
  if !truthy (fields.getProp "add") && !truthy (fields.getProp "remove") then
    .error "Set modification should have either add or remove key"
  else
    if truthy (fields.getProp "add") then
      match convertSetAddValue reg (fields.getProp "add") propShape with
      | .error e => .error e
      | .ok (addRes, addPost) =>
          if truthy (fields.getProp "remove") then
            match convertSetRemoveValue (fields.getProp "remove") propShape with
            | .error e => .error e
            | .ok remRes =>
                .ok (.setMod (some addRes) (some remRes),
                  .obj (fields.setKey "add" addPost))
          else
            .ok (.setMod (some addRes) none, .obj (fields.setKey "add" addPost))
    else
      match convertSetRemoveValue (fields.getProp "remove") propShape with
      | .error e => .error e
      | .ok remRes => .ok (.setMod none (some remRes), .obj fields)
termination_by 5 * sizeOf fields + 2
decreasing_by all_goals (simp_wf <;> (first | omega | (have hsz := JSFields.sizeOf_getProp_le fields "add"; omega)))

/-- MutationQuery.ts convertSetAddValue (lines 79-88): a singly supplied
value is normalized into a one-element array; elements are converted with
the default `allowArrays = true`. -/
def convertSetAddValue (reg : ShapeRegistry) (v : JSValue)
    (shape : PropertyShape) : Except Err (List UpdateValue × JSValue) :=
  match v with
  | .arr items =>
      match convertArrayItems reg items shape true with
      | .error e => .error e
      | .ok (rs, post) => .ok (rs, .arr post)
  | single =>
      match convertUpdateValue reg single shape true with
      | .error e => .error e
      | .ok (r, post) => .ok ([r], post)
termination_by 5 * sizeOf v + 1
decreasing_by all_goals (simp_wf <;> omega)

/-- element-wise conversion of an array value (the `value.map` calls in
convertUpdateValue line 169 and convertSetAddValue line 84). -/
def convertArrayItems (reg : ShapeRegistry) (items : JSArray)
    (shape : PropertyShape) (elemAllowArrays : Bool) :
    Except Err (List UpdateValue × JSArray) :=
  match items with
  | .nil => .ok ([], .nil)
  | .cons h t =>
      match convertUpdateValue reg h shape elemAllowArrays with
      | .error e => .error e
      | .ok (r, post) =>
          match convertArrayItems reg t shape elemAllowArrays with
          | .error e => .error e
          | .ok (rs, postT) => .ok (r :: rs, .cons post postT)
termination_by 5 * sizeOf items + 4
decreasing_by all_goals (simp_wf <;> omega)

/-- MutationQuery.ts convertNodeDescription (lines 103-135): captures and
deletes `__id`, then converts every remaining field against the shape's
registered property shapes.  Returns the captured id (kept only when the
string is truthy, mirroring `if (id) res.__id = id`), the field list and
the post-state of the object. -/
def convertNodeDescription (reg : ShapeRegistry) (fields : JSFields)
    (shape : NodeShape) :
    Except Err (Option String × List (PropertyShape × UpdateValue) × JSFields) :=
  match convertFieldList reg
      (if fields.hasKey "__id" then fields.deleteKey "__id" else fields) shape with
  | .error e => .error e
  | .ok (convFields, post) =>
      let oid :=
        if fields.hasKey "__id" && jsToString (fields.getProp "__id") != "" then
          some (jsToString (fields.getProp "__id"))
        else none
      .ok (oid, convFields, post)
termination_by 5 * sizeOf fields + 2
decreasing_by all_goals (simp_wf <;> (first | omega | (have hsz := JSFields.sizeOf_deleteKey_le fields "__id"; (try split) <;> omega)))

/-- the `for (var key in obj)` loop of convertNodeDescription
(lines 116-125), with createNodePropertyValue (lines 137-146) inlined. -/
def convertFieldList (reg : ShapeRegistry) (fields : JSFields)
    (shape : NodeShape) :
    Except Err (List (PropertyShape × UpdateValue) × JSFields) :=
  match fields with
  | .nil => .ok ([], .nil)
  | .cons k v t =>
      match shape.propertyShapes.find? (fun p => p.label == k) with
      | none =>
          .error ("Invalid property key: " ++ k ++ ". The shape " ++
            nodeShapeDisplayName shape ++
            " does not have a registered property with this name. Make sure the get/set method exists, and that it uses a @objectProperty or @literalProperty decorator.")
      | some propShape =>
          match convertUpdateValue reg v propShape true with
          | .error e => .error e
          | .ok (val, postV) =>
              match convertFieldList reg t shape with
              | .error e => .error e
              | .ok (rest, postT) => .ok ((propShape, val) :: rest, .cons k postV postT)
termination_by 5 * sizeOf fields + 1
decreasing_by all_goals (simp_wf <;> omega)

end

/- ### checkNewCount (src/queries/QueryFactory.ts lines 260-275)
The outer `if (propShape.maxCount)` / `if (propShape.minCount)` are JS
truthiness tests: an unset bound or an explicit 0 disables the check. -/
def checkNewCount (propShape : PropertyShape) (numValues : Int) : Except Err Unit :=
  match propShape.maxCount with
  | some m =>
      if m != 0 && numValues > m then
        .error ("Too many values for property: " ++ propShape.label ++
          ". Max count is: " ++ toString m ++ ", updated count would be " ++
          toString numValues)
      else
        match propShape.minCount with
        | some mi =>
            if mi != 0 && numValues < mi then
              .error ("Too few values for property: " ++ propShape.label ++
                ". Min count is: " ++ toString mi ++ ", updated count would be " ++
                toString numValues)
            else .ok ()
        | none => .ok ()
  | none =>
      match propShape.minCount with
      | some mi =>
          if mi != 0 && numValues < mi then
            .error ("Too few values for property: " ++ propShape.label ++
              ". Min count is: " ++ toString mi ++ ", updated count would be " ++
              toString numValues)
          else .ok ()
      | none => .ok ()

/- ### convertUpdateObject and the mutation factories
(src/queries/MutationQuery.ts lines 20-38, UpdateQuery.ts, CreateQuery.ts) -/

/-- index keys of an array, for the `typeof obj === 'object'` branch of
convertUpdateObject hit by a top-level array value. -/
def arrayIndexFields (items : JSArray) (i : Nat) : JSFields :=
  match items with
  | .nil => .nil
  | .cons h t => .cons (toString i) h (arrayIndexFields t (i + 1))

/-- MutationQuery.ts convertUpdateObject (lines 20-38). -/
def convertUpdateObject (reg : ShapeRegistry) (obj : JSValue) (shape : NodeShape)
    (allowTopLevelId : Bool) :
    Except Err (Option String × List (PropertyShape × UpdateValue) × JSFields) :=
  match obj with
  | .obj fields =>
      if !allowTopLevelId && fields.hasKey "id" then
        .error "You cannot use id in the top level of an update object"
      else
        convertNodeDescription reg fields shape
  | .arr items =>
      -- arrays are `typeof 'object'` in JS and have no own `id` key
      convertNodeDescription reg (arrayIndexFields items 0) shape
  | .funcV => .error "Update functions are not implemented yet"
  | .shapeClass _ => .error "Update functions are not implemented yet"
  | _ => .error "Invalid update object"

/-- the id argument of Shape.update: a string or a NodeReferenceValue. -/
inductive NodeIdInput where
  | strId (s : String)
  | refId (s : String)
deriving DecidableEq, Repr

/-- utils/NodeReference.ts toNodeReference followed by `.id`. -/
def toNodeReferenceId : NodeIdInput → String
  | .strId s => s
  | .refId s => s

structure UpdateQueryObj where
  id : String
  shapeId : String
  updatesOid : Option String
  updatesFields : List (PropertyShape × UpdateValue)

structure CreateQueryObj where
  shapeId : String
  descriptionOid : Option String
  descriptionFields : List (PropertyShape × UpdateValue)

/-- UpdateQueryFactory (src/queries/UpdateQuery.ts): the constructor converts
the payload with the default `allowTopLevelId = false`; getQueryObject wraps
the result as `{type:'update', id, shape, updates}`. -/
def updateQueryFactory (reg : ShapeRegistry) (shape : NodeShape)
    (idInput : NodeIdInput) (obj : JSValue) : Except Err UpdateQueryObj :=
  match convertUpdateObject reg obj shape false with
  | .error e => .error e
  | .ok (oid, flds, _post) =>
      .ok ⟨toNodeReferenceId idInput, shape.id, oid, flds⟩

/-- CreateQueryFactory (src/queries/CreateQuery.ts): the constructor converts
the payload with `allowTopLevelId = true`; getQueryObject wraps the result
as `{type:'create', shape, description}`. -/
def createQueryFactory (reg : ShapeRegistry) (shape : NodeShape)
    (obj : JSValue) : Except Err CreateQueryObj :=
  match convertUpdateObject reg obj shape true with
  | .error e => .error e
  | .ok (oid, flds, _post) => .ok ⟨shape.id, oid, flds⟩

/- ### Query tracing (src/queries/SelectQuery.ts)

A `QueryBuilderObject` carries the `property` (the PropertyShape through
which it was reached), an optional `wherePath` filter, its `subject` (the
QueryBuilderObject it was read from, absent for the query root) and, for
roots backed by a query-context value, `__queryContextId` together with the
node shape of the context value (convertQueryContext, lines 960-970).
Reading a registered property off a traced placeholder (proxifyQueryShape
lines 1293-1358 / generatePathValue lines 717-805 /
callPropertyShapeAccessor lines 1152-1187) always produces a fresh object
whose `property` is the matched PropertyShape and whose `subject` is the
object the property was read from; during placeholder tracing every
shape-set wrapper carries exactly one synthetic member with the same
`property`/`subject` chain, so the single chain below captures the
serialized path of both. -/

/-- an opaque compiled filter (WherePath); its internal structure does not
matter for the claims below. -/
structure WherePath where
  tag : Nat
deriving DecidableEq, Repr

structure ShapeReferenceValue where
  id : String
  shapeId : String
deriving DecidableEq, Repr

/-- a step of a serialized query path: getPropertyStep (lines 867-872)
produces `{property, where}`; convertQueryContext prepends a
ShapeReferenceValue for query-context roots. -/
inductive QueryStep where
  | prop (property : Option PropertyShape) (whereP : Option WherePath)
  | subjectRef (r : ShapeReferenceValue)
deriving DecidableEq, Repr

inductive QueryBuilderObject where
  | mk (property : Option PropertyShape) (wherePath : Option WherePath)
      (subject : Option QueryBuilderObject)
      (queryContextRef : Option ShapeReferenceValue)

def QueryBuilderObject.property : QueryBuilderObject → Option PropertyShape
  | .mk p _ _ _ => p

def QueryBuilderObject.wherePath : QueryBuilderObject → Option WherePath
  | .mk _ w _ _ => w

/-- SelectQuery.ts getPropertyStep (lines 867-872). -/
def QueryBuilderObject.getPropertyStep : QueryBuilderObject → QueryStep
  | .mk p w _ _ => .prop p w

/-- SelectQuery.ts QueryBuilderObject.getPropertyPath (lines 884-902):
unshift this object's step (when it has a property or a where path), then
recurse into the subject; a query-context root prepends its subject
reference. -/
def QueryBuilderObject.getPropertyPath :
    QueryBuilderObject → List QueryStep → List QueryStep
  | .mk p w subj ctx, currentPath =>
      let path := if p.isSome || w.isSome then .prop p w :: currentPath else currentPath
      match subj with
      | some s => s.getPropertyPath path
      | none =>
          match ctx with
          | some r => .subjectRef r :: path
          | none => path

/-- the placeholder created for the query root by
SelectQueryFactory.getQueryShape (lines 1947-1960): no property, no where
path, no subject, no query context. -/
def placeholderRoot : QueryBuilderObject := .mk none none none none

/-- reading a registered property off a traced value: the new query value
has the matched PropertyShape as `property` and the read target as
`subject` (generatePathValue / callPropertyShapeAccessor). -/
def readProperty (n : QueryBuilderObject) (ps : PropertyShape) : QueryBuilderObject :=
  .mk (some ps) none (some n) none

def readChain (n : QueryBuilderObject) (props : List PropertyShape) : QueryBuilderObject :=
  props.foldl readProperty n

/-- `(step as PropertyQueryStep).where` used by QueryShapeSet.where; a
subject-reference step has no `where` member (undefined, falsy). -/
def stepHasWhere : QueryStep → Bool
  | .prop _ (some _) => true
  | _ => false

def QueryBuilderObject.setWherePath : QueryBuilderObject → WherePath → QueryBuilderObject
  | .mk p _ s c, w => .mk p (some w) s c

/-- SelectQuery.ts QueryShapeSet.where (lines 1196-1211): if any step of the
value's property path already carries a where clause, throw; otherwise
store the processed where path on this value.  `w` stands for the already
processed result of `processWhereClause(validation, leastSpecificShape)`. -/
def QueryShapeSet.where_ (n : QueryBuilderObject) (w : WherePath) :
    Except Err QueryBuilderObject :=
  if (n.getPropertyPath []).any stepHasWhere then
    .error "You cannot call where() from within a where() clause. Consider using some() or every() instead"
  else
    .ok (n.setWherePath w)

/- ### SelectQueryFactory state: one() and getQueryObject
(src/queries/SelectQuery.ts lines 1655-1770 and 1887-1916) -/

/-- the subject supplied to a query, as far as getQueryObject's
`'id' in subject` test is concerned. -/
structure QuerySubject where
  hasIdKey : Bool
  idValue : String
deriving DecidableEq, Repr

structure SelectQueryFactory where
  singleResult : Bool
  limit : Option Nat
  offset : Option Nat
  subject : Option QuerySubject
  wherePath : Option WherePath
deriving DecidableEq, Repr

/-- the patched promise's `one()` (patchResultPromise lines 1909-1913):
`setLimit(1)` plus `singleResult = true`. -/
def SelectQueryFactory.one (q : SelectQueryFactory) : SelectQueryFactory :=
  { q with limit := some 1, singleResult := true }

/-- the fields of the compiled select object relevant to the claims. -/
structure SelectQueryObj where
  type : String
  limit : Option Nat
  offset : Option Nat
  singleResult : Bool
deriving DecidableEq, Repr

/-- SelectQueryFactory.getQueryObject (lines 1742-1770):
`singleResult: this.singleResult || !!(this.subject && 'id' in subject)`. -/
def SelectQueryFactory.getQueryObject (q : SelectQueryFactory) : SelectQueryObj :=
  { type := "select"
    limit := q.limit
    offset := q.offset
    singleResult :=
      q.singleResult ||
        (match q.subject with
         | some s => s.hasIdKey
         | none => false) }

/- ### Shape metadata: inherited property shapes and deduplication

src/shapes/SHACL.ts getPropertyShapes(true) (lines 239-256) walks the shape
class and its prototype chain closest-first, concatenating each class's own
`propertyShapes`.  We represent the chain as the list of own property-shape
lists, subclass first. -/
def propertyShapesOfChain (chain : List (List PropertyShape)) : List PropertyShape :=
  chain.flatten

/-- label-based deduplication keeping the first (most specific) occurrence;
`seen` accumulates labels already emitted. -/
def dedupByLabelAux : List PropertyShape → List String → List PropertyShape
  | [], _ => []
  | p :: rest, seen =>
      if p.label ∈ seen then dedupByLabelAux rest seen
      else p :: dedupByLabelAux rest (p.label :: seen)

/-- Modelled from the spec: `NodeShape.getUniquePropertyShapes` is invoked
by `Shape.selectAll` (src/shapes/Shape.ts line 896) and by
`QueryShapeSet.selectAll` / `QueryShape.selectAll`
(src/queries/SelectQuery.ts lines 1229 and 1403) but its body is absent
from the sources; per the spec it is the `getPropertyShapes(true)`
traversal deduplicated by label with the most specific (closest to the
shape class) definition winning, in stable closest-ancestor-first order. -/
def getUniquePropertyShapes (chain : List (List PropertyShape)) : List PropertyShape :=
  dedupByLabelAux (propertyShapesOfChain chain) []

/- ### Override tightening (spec-modelled)

Modelled from the spec: the registration-time override guard is referenced
by src/tests/metadata.test.ts (errors /minCount cannot be lowered/,
/maxCount cannot be increased/, /nodeKind cannot be widened/) and by the
changeset notes, but its implementation is absent from the sources
(registerPropertyShape in src/shapes/SHACL.ts lines 422-434 as provided
contains no guard).  Per the spec: an omitted field silently inherits the
ancestor's value; an explicit minCount may only increase or stay equal, an
explicit maxCount may only decrease or stay equal, an explicit nodeKind may
only narrow; any violation fails registration immediately with an error
naming the field and the attempted change. -/
structure PropertyOverrideConfig where
  minCount : Option Int
  maxCount : Option Int
  nodeKind : Option NodeKind
deriving DecidableEq, Repr

/-- Modelled from the spec: an explicitly supplied minCount may never
decrease (checked only when the ancestor value is set). -/
def minCountViolation (parent : PropertyShape) (cfg : PropertyOverrideConfig) : Bool :=
  match cfg.minCount, parent.minCount with
  | some m2, some m1 => m2 < m1
  | _, _ => false

/-- Modelled from the spec: an explicitly supplied maxCount may never
increase when both bounds are numeric (explicit 0 is a legal value). -/
def maxCountViolation (parent : PropertyShape) (cfg : PropertyOverrideConfig) : Bool :=
  match cfg.maxCount, parent.maxCount with
  | some m2, some m1 => m2 > m1
  | _, _ => false

/-- Modelled from the spec: an explicitly supplied nodeKind may only
narrow (be a subset of the ancestor node kind). -/
def nodeKindViolation (parent : PropertyShape) (cfg : PropertyOverrideConfig) : Bool :=
  match cfg.nodeKind, parent.nodeKind with
  | some k2, some k1 => !(k2.isSubsetOf k1)
  | _, _ => false

/-- Modelled from the spec: validation and merge of a subclass redeclaration
of an inherited property (see the section comment above). -/
def validatePropertyOverride (parent : PropertyShape) (cfg : PropertyOverrideConfig) :
    Except Err PropertyShape :=
  if minCountViolation parent cfg then
    .error ("minCount cannot be lowered from " ++ toString (parent.minCount.getD 0) ++
      " to " ++ toString (cfg.minCount.getD 0) ++ " when overriding property " ++
      parent.label)
  else if maxCountViolation parent cfg then
    .error ("maxCount cannot be increased from " ++ toString (parent.maxCount.getD 0) ++
      " to " ++ toString (cfg.maxCount.getD 0) ++ " when overriding property " ++
      parent.label)
  else if nodeKindViolation parent cfg then
    .error ("nodeKind cannot be widened when overriding property " ++ parent.label)
  else
    .ok { parent with
      minCount := match cfg.minCount with | some m => some m | none => parent.minCount
      maxCount := match cfg.maxCount with | some m => some m | none => parent.maxCount
      nodeKind := match cfg.nodeKind with | some k => some k | none => parent.nodeKind }

/-- a JS array of string literals (used to state claims about multi-value
updates). -/
def mkStrArr : List String → JSArray
  | [] => .nil
  | s :: rest => .cons (.str s) (mkStrArr rest)

def UpdateValue.isDescValue : UpdateValue → Bool
  | .desc _ _ _ => true
  | _ => false

/- concrete fixtures used in counterexamples and witnesses, mirroring the
Person test shape of src/test-helpers/query-fixtures -/
def personHobbyShape : PropertyShape :=
  ⟨"hobby", "Person", none, some 1, some NodeKind.shaclLiteral, none⟩

def personNameShape : PropertyShape :=
  ⟨"name", "Person", some 1, some 1, some NodeKind.shaclLiteral, none⟩

def personFriendsShape : PropertyShape :=
  ⟨"friends", "Person", none, none, some NodeKind.shaclIRI, some "PersonShape"⟩

def personBestFriendShape : PropertyShape :=
  ⟨"bestFriend", "Person", none, some 1, some NodeKind.shaclIRI, some "PersonShape"⟩

def personNodeShape : NodeShape :=
  ⟨"PersonShape", "Person",
   [personNameShape, personHobbyShape, personFriendsShape, personBestFriendShape]⟩

def fixtureRegistry : ShapeRegistry := [personNodeShape]

/-- a subclass override of the inherited `name` property (most specific
declaration in the Student chain fixture). -/
def childNameShape : PropertyShape :=
  ⟨"name", "Student", some 1, some 1, some NodeKind.shaclLiteral, none⟩

/-- inheritance chain fixture: Student extends Person and redeclares
`name`; own property lists, subclass first. -/
def studentChain : List (List PropertyShape) :=
  [[childNameShape], [personNameShape, personHobbyShape]]

/-- ancestor property fixture for override checks. -/
def baseLinkShape : PropertyShape :=
  ⟨"link", "Base", some 2, some 5, some NodeKind.shaclBlankNodeOrIRI, none⟩

def wherePathA : WherePath := ⟨1⟩

def wherePathB : WherePath := ⟨2⟩

/-- a traced set value whose path already carries a where filter. -/
def tracedWithWhere : QueryBuilderObject :=
  (readProperty placeholderRoot personFriendsShape).setWherePath wherePathA

/-- a query with a concrete subject bearing an identifier, one() not called. -/
def selectFactoryFixture : SelectQueryFactory :=
  ⟨false, none, none, some ⟨true, "p1"⟩, none⟩

/-- `{add:[{id:'a'}], foo:'x'}` - an add key next to an unrelated key. -/
def addFooFields : JSFields :=
  .cons "add" (.arr (.cons (.obj (.cons "id" (.str "a") .nil)) .nil))
    (.cons "foo" (.str "x") .nil)

/-- `{id:'a', name:'b'}` - an id key next to another key. -/
def refNameFields : JSFields :=
  .cons "id" (.str "a") (.cons "name" (.str "b") .nil)

/-- a nested object value carrying an explicit `shape` key. -/
def shapeKeyedFields : JSFields :=
  .cons "shape" (.shapeClass "PersonShape") (.cons "hobby" (.str "golf") .nil)

/-- `{__id:'p9', hobby:'chess'}`. -/
def c9PayloadFields : JSFields :=
  .cons "__id" (.str "p9") (.cons "hobby" (.str "chess") .nil)

/-- `{id:'p1', hobby:'chess'}` - a top-level id key. -/
def topIdFields : JSFields :=
  .cons "id" (.str "p1") (.cons "hobby" (.str "chess") .nil)

/-- `{bestFriend:{id:'p2'}}` - an id key only in a nested object. -/
def nestedIdFields : JSFields :=
  .cons "bestFriend" (.obj (.cons "id" (.str "p2") .nil)) .nil

/- ### Helper lemmas about the JS object model -/

theorem JSFields.getProp_of_hasKey_false (f : JSFields) (key : String)
    (h : f.hasKey key = false) : f.getProp key = .undef := by
  match f with
  | .nil => rfl
  | .cons k v t =>
      simp only [JSFields.hasKey, Bool.or_eq_false_iff] at h
      have ih := JSFields.getProp_of_hasKey_false t key h.2
      simp only [JSFields.getProp]
      rw [if_neg (by simpa using h.1)]
      exact ih

theorem JSFields.deleteKey_of_hasKey_false (f : JSFields) (key : String)
    (h : f.hasKey key = false) : f.deleteKey key = f := by
  match f with
  | .nil => rfl
  | .cons k v t =>
      simp only [JSFields.hasKey, Bool.or_eq_false_iff] at h
      have ih := JSFields.deleteKey_of_hasKey_false t key h.2
      simp only [JSFields.deleteKey]
      rw [if_neg (by simpa using h.1)]
      rw [ih]

theorem JSFields.hasKey_deleteKey_self (f : JSFields) (key : String) :
    (f.deleteKey key).hasKey key = false := by
  match f with
  | .nil => rfl
  | .cons k v t =>
      have ih := JSFields.hasKey_deleteKey_self t key
      simp only [JSFields.deleteKey]
      split
      · exact ih
      · simp only [JSFields.hasKey, ih, Bool.or_false]
        next hne => simpa using hne

theorem JSFields.hasKey_deleteKey_ne (f : JSFields) (key other : String)
    (h : other ≠ key) : (f.deleteKey key).hasKey other = f.hasKey other := by
  match f with
  | .nil => rfl
  | .cons k v t =>
      have ih := JSFields.hasKey_deleteKey_ne t key other h
      simp only [JSFields.deleteKey]
      split
      · next heq =>
          simp only [JSFields.hasKey, ih]
          have hkk : k = key := by simpa using heq
          have hfalse : (k == other) = false := by
            simp only [beq_eq_false_iff_ne, hkk]
            exact fun hko => h (Eq.symm hko)
          simp [hfalse]
      · simp only [JSFields.hasKey, ih]

theorem JSFields.getProp_deleteKey_ne (f : JSFields) (key other : String)
    (h : other ≠ key) : (f.deleteKey key).getProp other = f.getProp other := by
  match f with
  | .nil => rfl
  | .cons k v t =>
      have ih := JSFields.getProp_deleteKey_ne t key other h
      simp only [JSFields.deleteKey]
      split
      · next heq =>
          simp only [JSFields.getProp, ih]
          have hkk : k = key := by simpa using heq
          have hfalse : (k == other) = false := by
            simp only [beq_eq_false_iff_ne, hkk]
            exact fun hko => h (Eq.symm hko)
          simp [hfalse]
      · simp only [JSFields.getProp, ih]

theorem JSFields.hasKey_setKey (f : JSFields) (key other : String) (v : JSValue) :
    (f.setKey key v).hasKey other = f.hasKey other := by
  match f with
  | .nil => rfl
  | .cons k w t =>
      have ih := JSFields.hasKey_setKey t key other v
      simp only [JSFields.setKey]
      split <;> simp [JSFields.hasKey, ih]

/- ### Behavior lemmas for the conversion routines -/

theorem convertUpdateValue_lit (reg : ShapeRegistry) (v : JSValue)
    (ps : PropertyShape) (b : Bool) (h : isLiteralPrim v = true) :
    convertUpdateValue reg v ps b = .ok (.lit v, v) := by
  cases v <;> simp_all [isLiteralPrim, convertUpdateValue]

theorem convertUpdateValue_nodeRef (reg : ShapeRegistry) (g : JSFields)
    (ps : PropertyShape) (b : Bool) (h : g.hasKey "id" = true) :
    convertUpdateValue reg (.obj g) ps b = .ok (.ref (g.getProp "id"), .obj g) := by
  simp [convertUpdateValue, h, convertNodeReference]

theorem convertUpdateValue_arr_inv (reg : ShapeRegistry) (items : JSArray)
    (ps : PropertyShape) (b : Bool) (res : UpdateValue) (post : JSValue)
    (h : convertUpdateValue reg (.arr items) ps b = .ok (res, post)) :
    ∃ rs postA, res = .vals rs ∧ post = .arr postA := by
  cases b with
  | false => simp [convertUpdateValue] at h
  | true =>
      simp only [convertUpdateValue, Bool.not_true] at h
      rw [if_neg (by simp)] at h
      cases hAI : convertArrayItems reg items ps false with
      | error e => rw [hAI] at h; simp at h
      | ok pr =>
          obtain ⟨rs, postA⟩ := pr
          rw [hAI] at h
          simp only [Except.ok.injEq, Prod.mk.injEq] at h
          exact ⟨rs, postA, h.1.symm, h.2.symm⟩

theorem convertFieldList_post (reg : ShapeRegistry) (fields : JSFields)
    (shape : NodeShape) (r : List (PropertyShape × UpdateValue)) (post : JSFields)
    (h : convertFieldList reg fields shape = .ok (r, post)) :
    post.keys = fields.keys ∧
      (∀ key, isLiteralPrim (fields.getProp key) = true →
        post.getProp key = fields.getProp key) := by
  match fields with
  | .nil =>
      simp only [convertFieldList, Except.ok.injEq, Prod.mk.injEq] at h
      obtain ⟨-, hp⟩ := h
      subst hp
      exact ⟨rfl, fun key _ => rfl⟩
  | .cons k v t =>
      simp only [convertFieldList] at h
      split at h
      · simp at h
      · rename_i psh hf
        split at h
        · simp at h
        · rename_i val postV hv
          split at h
          · simp at h
          · rename_i rest postT ht
            simp only [Except.ok.injEq, Prod.mk.injEq] at h
            obtain ⟨-, hp⟩ := h
            have ih := convertFieldList_post reg t shape rest postT ht
            subst hp
            constructor
            · simp [JSFields.keys, ih.1]
            · intro key hk
              simp only [JSFields.getProp] at hk ⊢
              by_cases hkey : (k == key) = true
              · simp only [hkey, if_true] at hk ⊢
                have hlit := convertUpdateValue_lit reg v psh true hk
                rw [hlit] at hv
                simp only [Except.ok.injEq, Prod.mk.injEq] at hv
                exact hv.2.symm
              · simp only [hkey, if_false] at hk ⊢
                exact ih.2 key hk

theorem JSFields.hasKey_eq_any (f : JSFields) (k : String) :
    f.hasKey k = f.keys.any (fun k2 => k2 == k) := by
  match f with
  | .nil => rfl
  | .cons k2 v t =>
      simp [JSFields.hasKey, JSFields.keys, JSFields.hasKey_eq_any t k]

theorem JSFields.hasKey_of_keys_eq (f g : JSFields) (h : g.keys = f.keys) (k : String) :
    g.hasKey k = f.hasKey k := by
  rw [JSFields.hasKey_eq_any, JSFields.hasKey_eq_any, h]

theorem convertNodeDescription_post (reg : ShapeRegistry) (fields : JSFields)
    (shape : NodeShape) (oid : Option String)
    (r : List (PropertyShape × UpdateValue)) (post : JSFields)
    (h : convertNodeDescription reg fields shape = .ok (oid, r, post)) :
    post.keys = (fields.deleteKey "__id").keys ∧
      (∀ key, key ≠ "__id" → isLiteralPrim (fields.getProp key) = true →
        post.getProp key = fields.getProp key) := by
  simp only [convertNodeDescription] at h
  split at h
  · simp at h
  · rename_i convFields post2 hfl
    simp only [Except.ok.injEq, Prod.mk.injEq] at h
    obtain ⟨-, -, hp⟩ := h
    subst hp
    by_cases hid : fields.hasKey "__id" = true
    · rw [if_pos hid] at hfl
      have hpost := convertFieldList_post reg (fields.deleteKey "__id") shape convFields post2 hfl
      refine ⟨hpost.1, ?_⟩
      intro key hne hk
      have hg := JSFields.getProp_deleteKey_ne fields "__id" key hne
      rw [← hg] at hk
      rw [← hg]
      exact hpost.2 key hk
    · rw [if_neg hid] at hfl
      have hid2 : fields.hasKey "__id" = false := by
        cases hcase : fields.hasKey "__id" with
        | false => rfl
        | true => exact absurd hcase hid
      have hdel := JSFields.deleteKey_of_hasKey_false fields "__id" hid2
      have hpost := convertFieldList_post reg fields shape convFields post2 hfl
      refine ⟨by rw [hdel]; exact hpost.1, ?_⟩
      intro key _ hk
      exact hpost.2 key hk

theorem convertSetModification_inv (reg : ShapeRegistry) (fields : JSFields)
    (ps : PropertyShape) (res : UpdateValue) (post : JSValue)
    (h : convertSetModification reg fields ps = .ok (res, post)) :
    res.isSetModValue = true ∧
      ∃ g, post = .obj g ∧ ∀ key, g.hasKey key = fields.hasKey key := by
  simp only [convertSetModification] at h
  split at h
  · simp at h
  · split at h
    · split at h
      · simp at h
      · rename_i addRes addPost hAdd
        split at h
        · split at h
          · simp at h
          · rename_i remRes hRem
            simp only [Except.ok.injEq, Prod.mk.injEq] at h
            refine ⟨by rw [← h.1]; rfl, fields.setKey "add" addPost, h.2.symm, ?_⟩
            intro key
            exact JSFields.hasKey_setKey fields "add" key addPost
        · simp only [Except.ok.injEq, Prod.mk.injEq] at h
          refine ⟨by rw [← h.1]; rfl, fields.setKey "add" addPost, h.2.symm, ?_⟩
          intro key
          exact JSFields.hasKey_setKey fields "add" key addPost
    · split at h
      · simp at h
      · rename_i remRes hRem
        simp only [Except.ok.injEq, Prod.mk.injEq] at h
        exact ⟨by rw [← h.1]; rfl, fields, h.2.symm, fun key => rfl⟩

theorem convertStrippedObject_inv (reg : ShapeRegistry) (fields : JSFields)
    (ps : PropertyShape) (vs : NodeShape) (res : UpdateValue) (post : JSValue)
    (h : convertStrippedObject reg fields ps vs = .ok (res, post)) :
    res.isSetModValue = isSetModification fields ∧
      res.isRefValue = false ∧
      ∃ g, post = .obj g ∧
        (∀ key, fields.hasKey key = false → g.hasKey key = false) := by
  simp only [convertStrippedObject] at h
  split at h
  · rename_i hsm
    obtain ⟨hres, g, hpost, hkeys⟩ := convertSetModification_inv reg fields ps res post h
    refine ⟨by rw [hres, hsm], ?_, g, hpost, ?_⟩
    · cases res <;> simp_all [UpdateValue.isSetModValue, UpdateValue.isRefValue]
    · intro key hk
      rw [hkeys key, hk]
  · rename_i hsm
    split at h
    · simp at h
    · rename_i oid flds post2 hnd
      simp only [Except.ok.injEq, Prod.mk.injEq] at h
      obtain ⟨hres, hpost⟩ := h
      have hndp := convertNodeDescription_post reg fields vs oid flds post2 hnd
      refine ⟨?_, ?_, post2, hpost.symm, ?_⟩
      · rw [← hres]
        simp only [UpdateValue.isSetModValue]
        cases hcase : isSetModification fields with
        | false => rfl
        | true => exact absurd hcase hsm
      · rw [← hres]; rfl
      · intro key hk
        have h1 : (fields.deleteKey "__id").hasKey key = false := by
          by_cases hne : key = "__id"
          · subst hne; exact JSFields.hasKey_deleteKey_self fields "__id"
          · rw [JSFields.hasKey_deleteKey_ne fields "__id" key hne]; exact hk
        have h2 := JSFields.hasKey_of_keys_eq (fields.deleteKey "__id") post2 hndp.1 key
        rw [h2, h1]

theorem convertObjectValue_inv (reg : ShapeRegistry) (fields : JSFields)
    (ps : PropertyShape) (vs : NodeShape) (res : UpdateValue) (post : JSValue)
    (h : convertObjectValue reg fields ps vs = .ok (res, post)) :
    res.isRefValue = false ∧
      (truthy (fields.getProp "shape") = true →
        ∃ g2, post = .obj g2 ∧ g2.hasKey "shape" = false) := by
  simp only [convertObjectValue] at h
  split at h
  · rename_i htr
    split at h
    · rename_i ns hns
      split at h
      · simp at h
      · obtain ⟨hsm, href, g, hpost, hkeys⟩ :=
          convertStrippedObject_inv reg (fields.deleteKey "shape") ps vs res post h
        refine ⟨href, fun _ => ⟨g, hpost, ?_⟩⟩
        exact hkeys "shape" (JSFields.hasKey_deleteKey_self fields "shape")
    · simp at h
  · rename_i htr
    obtain ⟨hsm, href, g, hpost, hkeys⟩ :=
      convertStrippedObject_inv reg fields ps vs res post h
    refine ⟨href, fun hcontra => absurd hcontra htr⟩

theorem convertUpdateValue_obj_res (reg : ShapeRegistry) (g : JSFields)
    (ps : PropertyShape) (b : Bool) (res : UpdateValue) (post : JSValue)
    (hid : g.hasKey "id" = false)
    (h : convertUpdateValue reg (.obj g) ps b = .ok (res, post)) :
    res.isRefValue = false ∧
      (truthy (g.getProp "shape") = true →
        ∃ g2, post = .obj g2 ∧ g2.hasKey "shape" = false) := by
  simp only [convertUpdateValue, hid, Bool.false_eq_true, if_false] at h
  split at h
  · rename_i vsId hvs
    split at h
    · simp at h
    · rename_i valueShape hgs
      exact convertObjectValue_inv reg g ps valueShape res post h
  · rename_i hvs
    split at h
    · split at h
      · rename_i valueShape hsk
        exact convertObjectValue_inv reg g ps valueShape res post h
      · simp at h
    · simp at h

theorem convertUpdateValue_obj_noshape (reg : ShapeRegistry) (g : JSFields)
    (ps : PropertyShape) (b : Bool) (res : UpdateValue) (post : JSValue)
    (vsId : String) (vs : NodeShape)
    (hid : g.hasKey "id" = false) (hsh : g.hasKey "shape" = false)
    (hvs : ps.valueShape = some vsId) (hreg : getShapeClass reg vsId = some vs)
    (h : convertUpdateValue reg (.obj g) ps b = .ok (res, post)) :
    convertStrippedObject reg g ps vs = .ok (res, post) := by
  simp only [convertUpdateValue, hid, Bool.false_eq_true, if_false, hvs, hreg] at h
  have hundef := JSFields.getProp_of_hasKey_false g "shape" hsh
  simp only [convertObjectValue, hundef, truthy, Bool.false_eq_true, if_false] at h
  exact h

/- ### Tracing lemmas -/

theorem getPropertyPath_readChain (props : List PropertyShape)
    (n : QueryBuilderObject) (cur : List QueryStep) :
    (readChain n props).getPropertyPath cur =
      n.getPropertyPath ((props.map (fun ps => QueryStep.prop (some ps) none)) ++ cur) := by
  induction props generalizing n cur with
  | nil => rfl
  | cons p ps ih =>
      show (readChain (readProperty n p) ps).getPropertyPath cur = _
      rw [ih]
      rfl

theorem getPropertyPath_placeholderRoot (cur : List QueryStep) :
    placeholderRoot.getPropertyPath cur = cur := rfl

/-- Claim C6 (path fidelity): for any chain of N registered property reads
on a traced placeholder, the serialized query path contains exactly N
property steps, in read order, each step naming the PropertyShape that was
accessed. -/
theorem path_fidelity_of_read_chain (props : List PropertyShape) :
    (readChain placeholderRoot props).getPropertyPath [] =
        props.map (fun ps => QueryStep.prop (some ps) none) ∧
      ((readChain placeholderRoot props).getPropertyPath []).length = props.length := by
  have h := getPropertyPath_readChain props placeholderRoot []
  rw [getPropertyPath_placeholderRoot, List.append_nil] at h
  exact ⟨h, by rw [h, List.length_map]⟩

/-- Claim C7 (nested where is an error): calling where() on a set value
whose property path already carries a where filter throws synchronously
during query construction (an error result, not a logged warning),
directing the caller to use some()/every() instead. -/
theorem nested_where_throws (n : QueryBuilderObject) (w : WherePath)
    (h : (n.getPropertyPath []).any stepHasWhere = true) :
    QueryShapeSet.where_ n w =
      .error "You cannot call where() from within a where() clause. Consider using some() or every() instead" := by
  simp only [QueryShapeSet.where_, h, if_true]

theorem nested_where_throws_witness :
    (tracedWithWhere.getPropertyPath []).any stepHasWhere = true ∧
      QueryShapeSet.where_ tracedWithWhere wherePathB =
        .error "You cannot call where() from within a where() clause. Consider using some() or every() instead" := by
  refine ⟨?h1, nested_where_throws tracedWithWhere wherePathB ?h1⟩
  rfl

/-- Claim C8 (single-result marking): one() sets the query's limit to 1 and
marks singleResult; independently of one(), the compiled select object's
singleResult flag is true whenever a concrete subject bearing an identifier
was supplied, even if one() was never called. -/
theorem single_result_marking (q : SelectQueryFactory) (s : QuerySubject) :
    ((q.one.getQueryObject).limit = some 1 ∧
      (q.one.getQueryObject).singleResult = true) ∧
      (q.subject = some s → s.hasIdKey = true →
        (q.getQueryObject).singleResult = true) := by
  refine ⟨⟨rfl, by simp [SelectQueryFactory.one, SelectQueryFactory.getQueryObject]⟩, ?_⟩
  intro hsub hid
  simp [SelectQueryFactory.getQueryObject, hsub, hid]

theorem single_result_marking_witness :
    selectFactoryFixture.subject = some ⟨true, "p1"⟩ ∧
      (⟨true, "p1"⟩ : QuerySubject).hasIdKey = true ∧
      selectFactoryFixture.singleResult = false ∧
      (selectFactoryFixture.getQueryObject).singleResult = true := by
  refine ⟨rfl, rfl, rfl, ?_⟩
  exact (single_result_marking selectFactoryFixture ⟨true, "p1"⟩).2 rfl rfl

/- ### Deduplication lemmas -/

theorem dedupByLabelAux_sublist (l : List PropertyShape) (seen : List String) :
    (dedupByLabelAux l seen).Sublist l := by
  induction l generalizing seen with
  | nil => simp [dedupByLabelAux]
  | cons p rest ih =>
      simp only [dedupByLabelAux]
      split
      · exact (ih seen).cons p
      · exact (ih (p.label :: seen)).cons₂ p

theorem dedupByLabelAux_notin_seen (l : List PropertyShape) (seen : List String)
    (q : PropertyShape) (hq : q ∈ dedupByLabelAux l seen) : q.label ∉ seen := by
  induction l generalizing seen with
  | nil => simp [dedupByLabelAux] at hq
  | cons p rest ih =>
      simp only [dedupByLabelAux] at hq
      split at hq
      · exact ih seen hq
      · rcases List.mem_cons.mp hq with heq | hmem
        · subst heq
          assumption
        · have := ih (p.label :: seen) hmem
          exact fun hc => this (List.mem_cons_of_mem _ hc)

theorem dedupByLabelAux_labels_nodup (l : List PropertyShape) (seen : List String) :
    ((dedupByLabelAux l seen).map (fun p => p.label)).Nodup := by
  induction l generalizing seen with
  | nil => simp [dedupByLabelAux]
  | cons p rest ih =>
      simp only [dedupByLabelAux]
      split
      · exact ih seen
      · simp only [List.map_cons, List.nodup_cons]
        refine ⟨?_, ih (p.label :: seen)⟩
        intro hmem
        rcases List.mem_map.mp hmem with ⟨q, hq, hlabel⟩
        have := dedupByLabelAux_notin_seen rest (p.label :: seen) q hq
        exact this (by rw [hlabel]; exact List.mem_cons_self _ _)

theorem dedupByLabelAux_cover (l : List PropertyShape) (seen : List String)
    (p : PropertyShape) (hp : p ∈ l) (hseen : p.label ∉ seen) :
    ∃ q ∈ dedupByLabelAux l seen, q.label = p.label := by
  induction l generalizing seen with
  | nil => simp at hp
  | cons hd rest ih =>
      simp only [dedupByLabelAux]
      rcases List.mem_cons.mp hp with heq | hmem
      · subst heq
        split
        · next hin => exact absurd hin hseen
        · exact ⟨p, List.mem_cons_self _ _, rfl⟩
      · split
        · next hin => exact ih seen hmem hseen
        · next hnotin =>
            by_cases hsame : p.label = hd.label
            · exact ⟨hd, List.mem_cons_self _ _, hsame.symm⟩
            · obtain ⟨q, hq, hlabel⟩ := ih (hd.label :: seen) hmem (by
                intro hc
                rcases List.mem_cons.mp hc with h1 | h2
                · exact hsame h1
                · exact hseen h2)
              exact ⟨q, List.mem_cons_of_mem _ hq, hlabel⟩

theorem dedupByLabelAux_most_specific (l : List PropertyShape) (seen : List String)
    (q : PropertyShape) (hq : q ∈ dedupByLabelAux l seen) :
    l.find? (fun r => r.label == q.label) = some q := by
  induction l generalizing seen with
  | nil => simp [dedupByLabelAux] at hq
  | cons p rest ih =>
      simp only [dedupByLabelAux] at hq
      split at hq
      · next hin =>
          have hqnot := dedupByLabelAux_notin_seen rest seen q hq
          have hne : (p.label == q.label) = false := by
            simp only [beq_eq_false_iff_ne]
            intro hc
            exact hqnot (by rw [← hc]; exact hin)
          rw [List.find?_cons_of_neg _ (by simp [hne])]
          exact ih seen hq
      · next hnotin =>
          rcases List.mem_cons.mp hq with heq | hmem
          · subst heq
            rw [List.find?_cons_of_pos _ (by simp)]
          · have hqnot := dedupByLabelAux_notin_seen rest (p.label :: seen) q hmem
            have hne : (p.label == q.label) = false := by
              simp only [beq_eq_false_iff_ne]
              intro hc
              exact hqnot (by rw [← hc]; exact List.mem_cons_self _ _)
            rw [List.find?_cons_of_neg _ (by simp [hne])]
            exact ih (p.label :: seen) hmem

/-- Claim C3 (unique-property-shape resolution): over any inheritance chain
(own property-shape lists, closest class first, as traversed by
getPropertyShapes(true)), the spec-modelled getUniquePropertyShapes returns
exactly one PropertyShape per label, the most specific (first in
closest-ancestor-first order) declaration wins, and the order is a stable
subsequence of the traversal. -/
theorem unique_property_shapes_resolution (chain : List (List PropertyShape)) :
    ((getUniquePropertyShapes chain).map (fun p => p.label)).Nodup ∧
      (∀ p ∈ propertyShapesOfChain chain,
        ∃ q ∈ getUniquePropertyShapes chain, q.label = p.label) ∧
      (∀ q ∈ getUniquePropertyShapes chain,
        (propertyShapesOfChain chain).find? (fun r => r.label == q.label) = some q) ∧
      (getUniquePropertyShapes chain).Sublist (propertyShapesOfChain chain) := by
  refine ⟨dedupByLabelAux_labels_nodup _ [], ?_, ?_, dedupByLabelAux_sublist _ []⟩
  · intro p hp
    exact dedupByLabelAux_cover _ [] p hp (by simp)
  · intro q hq
    exact dedupByLabelAux_most_specific _ [] q hq

theorem unique_property_shapes_resolution_witness :
    childNameShape ∈ propertyShapesOfChain studentChain ∧
      personNameShape ∈ propertyShapesOfChain studentChain ∧
      childNameShape ∈ getUniquePropertyShapes studentChain ∧
      (∃ q ∈ getUniquePropertyShapes studentChain, q.label = personNameShape.label) ∧
      (propertyShapesOfChain studentChain).find?
          (fun r => r.label == childNameShape.label) = some childNameShape := by
  refine ⟨by decide, by decide, by decide, ?_, ?_⟩
  · exact (unique_property_shapes_resolution studentChain).2.1 personNameShape (by decide)
  · exact (unique_property_shapes_resolution studentChain).2.2.1 childNameShape (by decide)

/-- Claim C1 (override tightening at registration, spec-modelled): for a
subclass redeclaration of an inherited property, an explicitly supplied
minCount may only increase or stay equal, maxCount may only decrease or
stay equal, and nodeKind may only narrow; any violation fails registration
immediately with an error naming the field and the attempted change
(checks applied in order minCount, maxCount, nodeKind), while an omitted
field silently inherits the ancestor's value. -/
theorem override_tightening (parent : PropertyShape) (cfg : PropertyOverrideConfig) :
    (∀ m1 m2, parent.minCount = some m1 → cfg.minCount = some m2 → m2 < m1 →
      validatePropertyOverride parent cfg =
        .error ("minCount cannot be lowered from " ++ toString m1 ++ " to " ++
          toString m2 ++ " when overriding property " ++ parent.label)) ∧
    (∀ m1 m2, parent.maxCount = some m1 → cfg.maxCount = some m2 → m2 > m1 →
      minCountViolation parent cfg = false →
      validatePropertyOverride parent cfg =
        .error ("maxCount cannot be increased from " ++ toString m1 ++ " to " ++
          toString m2 ++ " when overriding property " ++ parent.label)) ∧
    (∀ k1 k2, parent.nodeKind = some k1 → cfg.nodeKind = some k2 →
      k2.isSubsetOf k1 = false →
      minCountViolation parent cfg = false → maxCountViolation parent cfg = false →
      validatePropertyOverride parent cfg =
        .error ("nodeKind cannot be widened when overriding property " ++ parent.label)) ∧
    (minCountViolation parent cfg = false → maxCountViolation parent cfg = false →
      nodeKindViolation parent cfg = false →
      ∃ merged, validatePropertyOverride parent cfg = .ok merged ∧
        merged.label = parent.label ∧
        merged.minCount =
          (match cfg.minCount with | some m => some m | none => parent.minCount) ∧
        merged.maxCount =
          (match cfg.maxCount with | some m => some m | none => parent.maxCount) ∧
        merged.nodeKind =
          (match cfg.nodeKind with | some k => some k | none => parent.nodeKind)) := by
  refine ⟨?_, ?_, ?_, ?_⟩
  · intro m1 m2 hm1 hm2 hlt
    have hviol : minCountViolation parent cfg = true := by
      simp [minCountViolation, hm1, hm2, hlt]
    simp [validatePropertyOverride, hviol, hm1, hm2]
  · intro m1 m2 hm1 hm2 hgt hmin
    have hviol : maxCountViolation parent cfg = true := by
      simp [maxCountViolation, hm1, hm2, hgt]
    simp [validatePropertyOverride, hmin, hviol, hm1, hm2]
  · intro k1 k2 hk1 hk2 hsub hmin hmax
    have hviol : nodeKindViolation parent cfg = true := by
      simp [nodeKindViolation, hk1, hk2, hsub]
    simp [validatePropertyOverride, hmin, hmax, hviol]
  · intro hmin hmax hkind
    refine ⟨{ parent with
        minCount := match cfg.minCount with | some m => some m | none => parent.minCount
        maxCount := match cfg.maxCount with | some m => some m | none => parent.maxCount
        nodeKind := match cfg.nodeKind with | some k => some k | none => parent.nodeKind },
      ?_, rfl, rfl, rfl, rfl⟩
    simp [validatePropertyOverride, hmin, hmax, hkind]

theorem override_tightening_witness :
    baseLinkShape.minCount = some 2 ∧
      (⟨some 1, none, none⟩ : PropertyOverrideConfig).minCount = some 1 ∧
      (1 : Int) < 2 ∧
      validatePropertyOverride baseLinkShape ⟨some 1, none, none⟩ =
        .error ("minCount cannot be lowered from " ++ toString (2 : Int) ++ " to " ++
          toString (1 : Int) ++ " when overriding property " ++ baseLinkShape.label) := by
  refine ⟨rfl, rfl, by decide, ?_⟩
  exact (override_tightening baseLinkShape ⟨some 1, none, none⟩).1 2 1 rfl rfl (by decide)

theorem convertArrayItems_strs (reg : ShapeRegistry) (xs : List String)
    (ps : PropertyShape) (b : Bool) :
    convertArrayItems reg (mkStrArr xs) ps b =
      .ok (xs.map (fun s => .lit (.str s)), mkStrArr xs) := by
  induction xs with
  | nil => simp [convertArrayItems, mkStrArr]
  | cons s rest ih =>
      simp [convertArrayItems, mkStrArr, convertUpdateValue, ih]

/-- Counterexample to claim C2 as stated: compiling an update that gives two
values to the maxCount:1 property `hobby` does not throw, and unsetting the
minCount:1 property `name` with null does not throw either - no conversion
routine invokes checkNewCount. -/
theorem cardinality_not_checked_counterexample :
    personHobbyShape.maxCount = some 1 ∧
      convertUpdateValue fixtureRegistry (.arr (mkStrArr ["Chess", "Go"]))
        personHobbyShape true =
        .ok (.vals [.lit (.str "Chess"), .lit (.str "Go")],
          .arr (mkStrArr ["Chess", "Go"])) ∧
      personNameShape.minCount = some 1 ∧
      convertUpdateValue fixtureRegistry .nullV personNameShape true =
        .ok (.unset, .nullV) := by
  refine ⟨rfl, ?_, rfl, by simp [convertUpdateValue]⟩
  simp [convertUpdateValue, convertArrayItems, mkStrArr]

/-- Claim C2 (amended): checkNewCount, when invoked, throws exactly the
errors the claim describes (naming the property, the limit and the
attempted count, a nonzero maxCount exceeded being checked first), but
mutation compilation never invokes it: converting an array of literal
values succeeds regardless of the property's maxCount, and unsetting a
value with null succeeds regardless of its minCount. -/
theorem cardinality_check_amended :
    (∀ (ps : PropertyShape) (n m : Int), ps.maxCount = some m → m ≠ 0 → n > m →
      checkNewCount ps n =
        .error ("Too many values for property: " ++ ps.label ++ ". Max count is: " ++
          toString m ++ ", updated count would be " ++ toString n)) ∧
    (∀ (ps : PropertyShape) (n m : Int), ps.maxCount = none → ps.minCount = some m →
      m ≠ 0 → n < m →
      checkNewCount ps n =
        .error ("Too few values for property: " ++ ps.label ++ ". Min count is: " ++
          toString m ++ ", updated count would be " ++ toString n)) ∧
    (∀ (reg : ShapeRegistry) (xs : List String) (ps : PropertyShape),
      convertUpdateValue reg (.arr (mkStrArr xs)) ps true =
        .ok (.vals (xs.map (fun s => .lit (.str s))), .arr (mkStrArr xs))) ∧
    (∀ (reg : ShapeRegistry) (ps : PropertyShape),
      convertUpdateValue reg .nullV ps true = .ok (.unset, .nullV)) := by
  refine ⟨?_, ?_, ?_, ?_⟩
  · intro ps n m hmax hne hgt
    simp [checkNewCount, hmax, hne, hgt]
  · intro ps n m hmax hmin hne hlt
    simp [checkNewCount, hmax, hmin, hne, hlt]
  · intro reg xs ps
    simp [convertUpdateValue, convertArrayItems_strs]
  · intro reg ps
    simp [convertUpdateValue]

theorem cardinality_check_amended_witness :
    personHobbyShape.maxCount = some 1 ∧ (1 : Int) ≠ 0 ∧ (2 : Int) > 1 ∧
      checkNewCount personHobbyShape 2 =
        .error ("Too many values for property: " ++ personHobbyShape.label ++
          ". Max count is: " ++ toString (1 : Int) ++ ", updated count would be " ++
          toString (2 : Int)) ∧
      convertUpdateValue fixtureRegistry (.arr (mkStrArr ["Chess", "Go"]))
        personHobbyShape true =
        .ok (.vals (["Chess", "Go"].map (fun s => UpdateValue.lit (.str s))),
          .arr (mkStrArr ["Chess", "Go"])) := by
  refine ⟨rfl, by decide, by decide, ?_, ?_⟩
  · exact cardinality_check_amended.1 personHobbyShape 2 1 rfl (by decide) (by decide)
  · exact cardinality_check_amended.2.2.1 fixtureRegistry ["Chess", "Go"] personHobbyShape

/-- Counterexample to claim C4 as stated: `{add:[{id:'a'}], foo:'x'}` bears
a key other than add/remove, yet it is compiled as a set modification
(operator precedence in isSetModification: a truthy add key wins
unconditionally). -/
theorem set_modification_extra_key_counterexample :
    addFooFields.hasKey "foo" = true ∧
      addFooFields.hasKey "add" = true ∧
      addFooFields.numKeys = 2 ∧
      convertUpdateValue fixtureRegistry (.obj addFooFields) personFriendsShape true =
        .ok (.setMod (some [.ref (.str "a")]) none, .obj addFooFields) := by
  refine ⟨rfl, rfl, rfl, ?_⟩
  simp [convertUpdateValue, convertObjectValue, convertStrippedObject,
    convertSetModification, convertSetAddValue, convertArrayItems,
    isSetModification, truthy, JSFields.getProp, JSFields.hasKey,
    JSFields.numKeys, JSFields.setKey, getShapeClass, shapeKeyNodeShape,
    convertNodeReference, fixtureRegistry, personNodeShape, personFriendsShape,
    addFooFields, List.find?]

/-- Claim C4 (amended): a plain-object field value (without id or shape
keys, against a property with a resolvable valueShape) compiles to a set
modification exactly when isSetModification accepts it - that is, when it
has a truthy add value, or a truthy remove value and no keys besides
add/remove; a truthy add value forces set-modification treatment even when
other keys are present.  A plain array never compiles to a set-modification
shape, and singly supplied add/remove values are normalized into arrays. -/
theorem set_modification_amended :
    (∀ (reg : ShapeRegistry) (g : JSFields) (ps : PropertyShape) (b : Bool)
        (res : UpdateValue) (post : JSValue) (vsId : String) (vs : NodeShape),
      ps.valueShape = some vsId → getShapeClass reg vsId = some vs →
      g.hasKey "id" = false → g.hasKey "shape" = false →
      convertUpdateValue reg (.obj g) ps b = .ok (res, post) →
      res.isSetModValue = isSetModification g) ∧
    (∀ (reg : ShapeRegistry) (items : JSArray) (ps : PropertyShape) (b : Bool)
        (res : UpdateValue) (post : JSValue),
      convertUpdateValue reg (.arr items) ps b = .ok (res, post) →
      res.isSetModValue = false) ∧
    (∀ (reg : ShapeRegistry) (v : JSValue) (ps : PropertyShape)
        (rs : List UpdateValue) (post : JSValue),
      (∀ its, v ≠ .arr its) → convertSetAddValue reg v ps = .ok (rs, post) →
      rs.length = 1) ∧
    (∀ (v : JSValue) (ps : PropertyShape) (ys : List JSValue),
      (∀ its, v ≠ .arr its) → convertSetRemoveValue v ps = .ok ys →
      ys.length = 1) := by
  refine ⟨?_, ?_, ?_, ?_⟩
  · intro reg g ps b res post vsId vs hvs hreg hid hsh h
    have hstr := convertUpdateValue_obj_noshape reg g ps b res post vsId vs hid hsh hvs hreg h
    exact (convertStrippedObject_inv reg g ps vs res post hstr).1
  · intro reg items ps b res post h
    obtain ⟨rs, postA, hres, -⟩ := convertUpdateValue_arr_inv reg items ps b res post h
    rw [hres]
    rfl
  · intro reg v ps rs post hnotarr h
    cases v with
    | arr its => exact absurd rfl (hnotarr its)
    | str s =>
        simp only [convertSetAddValue] at h
        split at h
        · simp at h
        · simp only [Except.ok.injEq, Prod.mk.injEq] at h
          rw [← h.1]
          rfl
    | num n =>
        simp only [convertSetAddValue] at h
        split at h
        · simp at h
        · simp only [Except.ok.injEq, Prod.mk.injEq] at h
          rw [← h.1]
          rfl
    | boolean bb =>
        simp only [convertSetAddValue] at h
        split at h
        · simp at h
        · simp only [Except.ok.injEq, Prod.mk.injEq] at h
          rw [← h.1]
          rfl
    | date t =>
        simp only [convertSetAddValue] at h
        split at h
        · simp at h
        · simp only [Except.ok.injEq, Prod.mk.injEq] at h
          rw [← h.1]
          rfl
    | nullV =>
        simp only [convertSetAddValue] at h
        split at h
        · simp at h
        · simp only [Except.ok.injEq, Prod.mk.injEq] at h
          rw [← h.1]
          rfl
    | undef =>
        simp only [convertSetAddValue] at h
        split at h
        · simp at h
        · simp only [Except.ok.injEq, Prod.mk.injEq] at h
          rw [← h.1]
          rfl
    | funcV =>
        simp only [convertSetAddValue] at h
        split at h
        · simp at h
        · simp only [Except.ok.injEq, Prod.mk.injEq] at h
          rw [← h.1]
          rfl
    | shapeClass sid =>
        simp only [convertSetAddValue] at h
        split at h
        · simp at h
        · simp only [Except.ok.injEq, Prod.mk.injEq] at h
          rw [← h.1]
          rfl
    | obj g =>
        simp only [convertSetAddValue] at h
        split at h
        · simp at h
        · simp only [Except.ok.injEq, Prod.mk.injEq] at h
          rw [← h.1]
          rfl
  · intro v ps ys hnotarr h
    cases v
    case arr its => exact absurd rfl (hnotarr its)
    all_goals
      simp only [convertSetRemoveValue] at h
      split at h
      · simp at h
      · simp only [Except.ok.injEq] at h
        rw [← h]
        rfl

theorem set_modification_amended_witness :
    personFriendsShape.valueShape = some "PersonShape" ∧
      getShapeClass fixtureRegistry "PersonShape" = some personNodeShape ∧
      addFooFields.hasKey "id" = false ∧
      addFooFields.hasKey "shape" = false ∧
      (UpdateValue.setMod (some [.ref (.str "a")]) none).isSetModValue =
        isSetModification addFooFields := by
  refine ⟨rfl, rfl, rfl, rfl, ?_⟩
  refine set_modification_amended.1 fixtureRegistry addFooFields personFriendsShape true
    (.setMod (some [.ref (.str "a")]) none) (.obj addFooFields) "PersonShape"
    personNodeShape rfl rfl rfl rfl ?_
  simp [convertUpdateValue, convertObjectValue, convertStrippedObject,
    convertSetModification, convertSetAddValue, convertArrayItems,
    isSetModification, truthy, JSFields.getProp, JSFields.hasKey,
    JSFields.numKeys, JSFields.setKey, getShapeClass, shapeKeyNodeShape,
    convertNodeReference, fixtureRegistry, personNodeShape, personFriendsShape,
    addFooFields, List.find?]

/-- Counterexample to claim C5 as stated: `{id:'a', name:'b'}` bears an id
key together with another key, yet it compiles to a bare node reference
(dropping `name`), not to a nested node description - isNodeReference only
tests for the presence of an id key. -/
theorem node_reference_extra_key_counterexample :
    refNameFields.hasKey "id" = true ∧
      refNameFields.hasKey "name" = true ∧
      convertUpdateValue fixtureRegistry (.obj refNameFields) personFriendsShape true =
        .ok (.ref (.str "a"), .obj refNameFields) ∧
      (UpdateValue.ref (.str "a")).isDescValue = false := by
  refine ⟨rfl, rfl, ?_, rfl⟩
  have h := convertUpdateValue_nodeRef fixtureRegistry refNameFields personFriendsShape true rfl
  rw [show refNameFields.getProp "id" = JSValue.str "a" from rfl] at h
  exact h

/-- Claim C5 (amended): during mutation compilation a plain-object field
value compiles to a bare node reference exactly when it bears an id key -
any other keys are ignored rather than triggering nested-description
compilation; an object without an id key never compiles to a reference. -/
theorem node_reference_amended :
    (∀ (reg : ShapeRegistry) (g : JSFields) (ps : PropertyShape) (b : Bool),
      g.hasKey "id" = true →
      convertUpdateValue reg (.obj g) ps b = .ok (.ref (g.getProp "id"), .obj g)) ∧
    (∀ (reg : ShapeRegistry) (g : JSFields) (ps : PropertyShape) (b : Bool)
        (res : UpdateValue) (post : JSValue),
      g.hasKey "id" = false →
      convertUpdateValue reg (.obj g) ps b = .ok (res, post) →
      res.isRefValue = false) :=
  ⟨fun reg g ps b h => convertUpdateValue_nodeRef reg g ps b h,
    fun reg g ps b res post hid h =>
      (convertUpdateValue_obj_res reg g ps b res post hid h).1⟩

theorem node_reference_amended_witness :
    refNameFields.hasKey "id" = true ∧
      convertUpdateValue fixtureRegistry (.obj refNameFields) personFriendsShape true =
        .ok (.ref (refNameFields.getProp "id"), .obj refNameFields) :=
  ⟨rfl, node_reference_amended.1 fixtureRegistry refNameFields personFriendsShape true rfl⟩

/-- Claim C9 (mutation compilation mutates the payload in place):
converting a node description removes the __id key from the supplied
object while every other key stays present (literal values untouched), and
converting a nested object value that carries a shape key removes that
shape key from the nested object. -/
theorem payload_mutated_in_place :
    (∀ (reg : ShapeRegistry) (g : JSFields) (shape : NodeShape) (oid : Option String)
        (r : List (PropertyShape × UpdateValue)) (post : JSFields),
      convertNodeDescription reg g shape = .ok (oid, r, post) →
      post.hasKey "__id" = false ∧
        (∀ key, key ≠ "__id" → post.hasKey key = g.hasKey key) ∧
        (∀ key, key ≠ "__id" → isLiteralPrim (g.getProp key) = true →
          post.getProp key = g.getProp key)) ∧
    (∀ (reg : ShapeRegistry) (g : JSFields) (ps : PropertyShape) (b : Bool)
        (res : UpdateValue) (post : JSValue),
      g.hasKey "id" = false → truthy (g.getProp "shape") = true →
      convertUpdateValue reg (.obj g) ps b = .ok (res, post) →
      ∃ g2, post = .obj g2 ∧ g2.hasKey "shape" = false) := by
  constructor
  · intro reg g shape oid r post h
    obtain ⟨hkeys, hlit⟩ := convertNodeDescription_post reg g shape oid r post h
    refine ⟨?_, ?_, hlit⟩
    · rw [JSFields.hasKey_of_keys_eq (g.deleteKey "__id") post hkeys "__id"]
      exact JSFields.hasKey_deleteKey_self g "__id"
    · intro key hne
      rw [JSFields.hasKey_of_keys_eq (g.deleteKey "__id") post hkeys key]
      exact JSFields.hasKey_deleteKey_ne g "__id" key hne
  · intro reg g ps b res post hid htr h
    exact (convertUpdateValue_obj_res reg g ps b res post hid h).2 htr

theorem payload_mutated_in_place_witness :
    c9PayloadFields.hasKey "__id" = true ∧
      shapeKeyedFields.hasKey "shape" = true ∧
      (JSFields.cons "hobby" (.str "chess") .nil).hasKey "__id" = false ∧
      (JSFields.cons "hobby" (.str "golf") .nil).hasKey "shape" = false := by
  refine ⟨rfl, rfl, ?_, ?_⟩
  · have h : convertNodeDescription fixtureRegistry c9PayloadFields personNodeShape =
        .ok (some "p9", [(personHobbyShape, .lit (.str "chess"))],
          .cons "hobby" (.str "chess") .nil) := by
      simp [convertNodeDescription, convertFieldList, convertUpdateValue,
        isSetModification, truthy, jsToString, JSFields.getProp, JSFields.hasKey,
        JSFields.deleteKey, JSFields.numKeys, getShapeClass, nodeShapeDisplayName,
        fixtureRegistry, personNodeShape, personHobbyShape, personNameShape,
        personFriendsShape, personBestFriendShape, c9PayloadFields, List.find?]
    exact (payload_mutated_in_place.1 fixtureRegistry c9PayloadFields personNodeShape
      _ _ _ h).1
  · have h : convertUpdateValue fixtureRegistry (.obj shapeKeyedFields)
        personBestFriendShape true =
        .ok (.desc "PersonShape" none [(personHobbyShape, .lit (.str "golf"))],
          .obj (.cons "hobby" (.str "golf") .nil)) := by
      simp [convertNodeDescription, convertFieldList, convertUpdateValue,
        convertObjectValue, convertStrippedObject, isSetModification, truthy,
        jsToString, JSFields.getProp, JSFields.hasKey, JSFields.deleteKey,
        JSFields.numKeys, getShapeClass, shapeKeyNodeShape, nodeShapeDisplayName,
        fixtureRegistry, personNodeShape, personHobbyShape, personNameShape,
        personFriendsShape, personBestFriendShape, shapeKeyedFields, List.find?]
    obtain ⟨g2, hg2, hsh⟩ := (payload_mutated_in_place.2 fixtureRegistry
      shapeKeyedFields personBestFriendShape true _ _ rfl rfl h)
    injection hg2 with h1
    rw [← h1] at hsh
    exact hsh

/-- Claim C10 (top-level id ban in updates): an update payload object with a
top-level id key makes UpdateQueryFactory construction throw the dedicated
error; CreateQueryFactory passes allowTopLevelId = true, so convertUpdateObject
skips that check entirely and compiles the payload as a plain node
description; payloads without a top-level id proceed normally, and a nested
object bearing an id key simply compiles to a node reference. -/
theorem top_level_id_ban :
    (∀ (reg : ShapeRegistry) (shape : NodeShape) (nid : NodeIdInput) (g : JSFields),
      g.hasKey "id" = true →
      updateQueryFactory reg shape nid (.obj g) =
        .error "You cannot use id in the top level of an update object") ∧
    (∀ (reg : ShapeRegistry) (shape : NodeShape) (g : JSFields),
      convertUpdateObject reg (.obj g) shape true =
        convertNodeDescription reg g shape) ∧
    (∀ (reg : ShapeRegistry) (shape : NodeShape) (nid : NodeIdInput) (g : JSFields),
      g.hasKey "id" = false →
      updateQueryFactory reg shape nid (.obj g) =
        (match convertNodeDescription reg g shape with
         | .error e => .error e
         | .ok (oid, flds, _) =>
             .ok ⟨toNodeReferenceId nid, shape.id, oid, flds⟩)) ∧
    (∀ (reg : ShapeRegistry) (g : JSFields) (ps : PropertyShape) (b : Bool),
      g.hasKey "id" = true →
      convertUpdateValue reg (.obj g) ps b = .ok (.ref (g.getProp "id"), .obj g)) := by
  refine ⟨?_, ?_, ?_, ?_⟩
  · intro reg shape nid g h
    simp [updateQueryFactory, convertUpdateObject, h]
  · intro reg shape g
    simp [convertUpdateObject]
  · intro reg shape nid g hid
    simp only [updateQueryFactory, convertUpdateObject, hid, Bool.not_false,
      Bool.true_and, Bool.false_eq_true, if_false]
  · intro reg g ps b h
    exact convertUpdateValue_nodeRef reg g ps b h

theorem top_level_id_ban_witness :
    topIdFields.hasKey "id" = true ∧
      updateQueryFactory fixtureRegistry personNodeShape (.strId "p1") (.obj topIdFields) =
        .error "You cannot use id in the top level of an update object" ∧
      nestedIdFields.hasKey "id" = false ∧
      updateQueryFactory fixtureRegistry personNodeShape (.strId "p1") (.obj nestedIdFields) =
        .ok ⟨"p1", "PersonShape", none, [(personBestFriendShape, .ref (.str "p2"))]⟩ := by
  refine ⟨rfl, ?_, rfl, ?_⟩
  · exact top_level_id_ban.1 fixtureRegistry personNodeShape (.strId "p1") topIdFields rfl
  · have h := top_level_id_ban.2.2.1 fixtureRegistry personNodeShape (.strId "p1")
      nestedIdFields rfl
    rw [h]
    have hnd : convertNodeDescription fixtureRegistry nestedIdFields personNodeShape =
        .ok (none, [(personBestFriendShape, .ref (.str "p2"))],
          .cons "bestFriend" (.obj (.cons "id" (.str "p2") .nil)) .nil) := by
      simp [convertNodeDescription, convertFieldList, convertUpdateValue,
        isSetModification, truthy, jsToString, JSFields.getProp, JSFields.hasKey,
        JSFields.deleteKey, JSFields.numKeys, getShapeClass, nodeShapeDisplayName,
        convertNodeReference, fixtureRegistry, personNodeShape, personHobbyShape,
        personNameShape, personFriendsShape, personBestFriendShape, nestedIdFields,
        List.find?]
    rw [hnd]
    rfl
